import Mathlib

/-!
Shallow embedding of the image-fetch-and-storage-lifecycle core of
`main.py` (class `ImageDownloader` and the plugin teardown `terminate`).

Python strings are modelled as Lean `String` / `List Char`; the filesystem
state relevant to the storage directory is a listing of file names
(`FS.dirFiles`, `none` when the directory is missing) plus a writability
flag; Python exceptions are the inductive `PyExn`, and fallible operations
return `Except PyExn`.
-/

/-- Python `str.isspace` on the ASCII whitespace characters removed by
`str.strip()`: space, tab, newline, carriage return, vertical tab, form feed. -/
def pyIsSpace (c : Char) : Bool :=
  c == ' ' || c == '\t' || c == '\n' || c == '\r' || c.toNat == 11 || c.toNat == 12

/-- Left part of Python `str.strip()`. -/
def pyLstrip (l : List Char) : List Char := l.dropWhile pyIsSpace

/-- Right part of Python `str.strip()`. -/
def pyRstrip (l : List Char) : List Char := (l.reverse.dropWhile pyIsSpace).reverse

/-- Python `str.strip()`: remove leading and trailing whitespace. -/
def pyStrip (l : List Char) : List Char := pyRstrip (pyLstrip l)

/-- Python `s.split(';')[0]`: the characters before the first `;`. -/
def splitSemiHead (l : List Char) : List Char := l.takeWhile (fun c => c != ';')

/-- `ImageDownloader._parse_extension` (main.py lines 90-97):
`type_map.get(content_type.split(';')[0].strip(), 'jpg')`. -/
def parse_extension (ct : String) : String :=
  let key := pyStrip (splitSemiHead ct.data)
  if key = "image/jpeg".data then "jpg"
  else if key = "image/png".data then "png"
  else if key = "image/gif".data then "gif"
  else "jpg"

/-- `leadsWith a b` is true when `a` is an initial segment of `b`. -/
def leadsWith : List Char → List Char → Bool
  | [], _ => true
  | _ :: _, [] => false
  | a :: as, b :: bs => a == b && leadsWith as bs

/-- Python substring test `needle in hay`. -/
def hasSub (needle : List Char) : List Char → Bool
  | [] => leadsWith needle []
  | c :: rest => leadsWith needle (c :: rest) || hasSub needle rest

/-- Zero-padded decimal rendering of `n` on exactly `w` digit characters,
as produced by each fixed-width `strftime` directive (for `n < 10 ^ w`). -/
def padNum : Nat → Nat → List Char
  | 0, _ => []
  | w + 1, n => padNum w (n / 10) ++ [Char.ofNat (48 + n % 10)]

/-- A wall-clock instant as `datetime.now()` presents it to
`strftime("%Y%m%d%H%M%S%f")`: calendar fields plus microseconds. -/
structure Ts where
  year : Nat
  month : Nat
  day : Nat
  hour : Nat
  minute : Nat
  second : Nat
  usec : Nat
deriving DecidableEq

/-- Field bounds under which each `strftime` directive is a faithful
fixed-width rendering (real `datetime` values satisfy tighter bounds). -/
def ValidTs (t : Ts) : Prop :=
  t.year < 10000 ∧ t.month < 100 ∧ t.day < 100 ∧ t.hour < 100 ∧
    t.minute < 100 ∧ t.second < 100 ∧ t.usec < 1000000

instance (t : Ts) : Decidable (ValidTs t) := by
  unfold ValidTs; infer_instance

/-- `datetime.strftime("%Y%m%d%H%M%S%f")` (main.py line 71): 4-digit year,
2-digit month/day/hour/minute/second, 6-digit microseconds. -/
def strftimeYmdHMSf (t : Ts) : List Char :=
  padNum 4 t.year ++ padNum 2 t.month ++ padNum 2 t.day ++ padNum 2 t.hour ++
    padNum 2 t.minute ++ padNum 2 t.second ++ padNum 6 t.usec

/-- The saved file name `f'image_{timestamp}.{ext}'` (main.py line 73). -/
def imageFilename (t : Ts) (ext : String) : String :=
  String.mk ("image_".data ++ strftimeYmdHMSf t ++ '.' :: ext.data)

/-- `os.path.join(a, b)` for one component: `b` if `b` is absolute, else
`a`, a separator when `a` is nonempty and lacks one, then `b`. -/
def pathJoin (a b : String) : String :=
  match b.data with
  | '/' :: _ => b
  | _ =>
    if a.data = [] then b
    else match a.data.getLast? with
      | some '/' => String.mk (a.data ++ b.data)
      | _ => String.mk (a.data ++ '/' :: b.data)

/-- Python exceptions that the embedded code can raise or catch. -/
inductive PyExn where
  | requestException
  | ioError
  | permissionError
  | otherExn
deriving DecidableEq

/-- An HTTP response as `fetch_image` consumes it. -/
structure Response where
  statusCode : Nat
  contentType : Option String
  content : List Nat
  url : String
deriving DecidableEq

/-- Outcome of `requests.get`: either the call itself raised a
`RequestException` (connection error, timeout), or a response arrived. -/
inductive ReqResult where
  | exn : ReqResult
  | resp : Response → ReqResult
deriving DecidableEq

/-- Storage-directory state: the listing of file names when the directory
exists (`none` when missing), and whether writes into it succeed. -/
structure FS where
  dirFiles : Option (List String)
  writable : Bool
deriving DecidableEq

/-- The fixed remote endpoint queried by `fetch_image` (main.py line 58). -/
def api_url : String := "https://api.suyanw.cn/api/mao"

/-- The `try` block of `ImageDownloader.fetch_image` (main.py lines 60-80):
`requests.get` (a raised `RequestException` propagates), `raise_for_status`
(raises `HTTPError`, a `RequestException`, for status 400-599), the
content-type substring check returning `None`, file-name construction, and
the write (`open(..., 'wb')` raises an `IOError` when the directory is
missing or unwritable; an existing file of the same name is truncated and
rewritten, leaving the listing unchanged). -/
def fetch_image_body (folder : String) (now : Ts) (req : ReqResult) (fs : FS) :
    Except PyExn (Option String × FS) :=
  match req with
  | .exn => .error .requestException
  | .resp r =>
    if 400 ≤ r.statusCode ∧ r.statusCode < 600 then .error .requestException
    else
      let ct := r.contentType.getD ""
      if hasSub "image".data ct.data then
        let fn := imageFilename now (parse_extension ct)
        match fs.dirFiles with
        | some files =>
          if fs.writable then
            .ok (some (pathJoin folder fn),
              ⟨some (if fn ∈ files then files else files ++ [fn]), fs.writable⟩)
          else .error .ioError
        | none => .error .ioError
      else .ok (none, fs)

/-- The three `except` clauses of `fetch_image` (main.py lines 82-87):
`requests.exceptions.RequestException`, `IOError` (which in Python 3 is
`OSError` and so also catches `PermissionError`), and the catch-all
`Exception`.  Every `PyExn` is handled. -/
def fetchHandles : PyExn → Bool
  | .requestException => true
  | .ioError => true
  | .permissionError => true
  | .otherExn => true

/-- `ImageDownloader.fetch_image` as seen by its caller: each handled
exception falls through to `return None` with the filesystem as the failed
body left it (the body never mutates the listing before its last step). -/
def fetch_image (folder : String) (now : Ts) (req : ReqResult) (fs : FS) :
    Option String × FS :=
  match fetch_image_body folder now req fs with
  | .ok res => res
  | .error _ => (none, fs)

/-- `fetch_image` with exception propagation made explicit: an exception the
`except` clauses did not handle would escape to the caller as `.error`. -/
def fetch_image_exc (folder : String) (now : Ts) (req : ReqResult) (fs : FS) :
    Except PyExn (Option String × FS) :=
  match fetch_image_body folder now req fs with
  | .ok res => .ok res
  | .error e => if fetchHandles e then .ok (none, fs) else .error e

/-- Index of the last `.` in a file name, as `p.rfind('.')` locates it. -/
def lastDotIdx : List Char → Option Nat
  | [] => none
  | c :: cs =>
    match lastDotIdx cs with
    | some i => some (i + 1)
    | none => if c = '.' then some 0 else none

/-- The extension part of `os.path.splitext` on a bare file name: the
suffix from the last dot, empty when there is no dot or when every
character before the last dot is itself a dot (leading-dot files). -/
def splitextExt (p : List Char) : List Char :=
  match lastDotIdx p with
  | none => []
  | some i => if (p.take i).all (· = '.') then [] else p.drop i

/-- The filter list of `get_all_images` (main.py line 108). -/
def image_extensions : List (List Char) :=
  [".jpg".data, ".jpeg".data, ".png".data, ".gif".data, ".webp".data]

/-- The comprehension predicate `os.path.splitext(f)[1].lower() in
image_extensions` (main.py line 112). -/
def isImageFile (f : String) : Bool :=
  ((splitextExt f.data).map Char.toLower) ∈ image_extensions

/-- `ImageDownloader.get_all_images` (main.py lines 99-117): `[]` when the
storage directory is missing, else the directory listing filtered by
extension and joined onto the folder path.  The surrounding `try/except`
never fires in this model because listing a present directory succeeds. -/
def get_all_images (folder : String) (fs : FS) : List String :=
  match fs.dirFiles with
  | none => []
  | some files => (files.filter isImageFile).map (pathJoin folder)

/-- Remove the first element satisfying `p`; `none` when there is none. -/
def removeFirst (p : String → Bool) : List String → Option (List String)
  | [] => none
  | f :: fs => if p f then some fs else (removeFirst p fs).map (f :: ·)

/-- `os.remove(path)` against the storage listing: succeeds exactly when
some listed name joins to `path`, deleting that entry. -/
def tryRemove (folder path : String) (fs : FS) : Option FS :=
  match fs.dirFiles with
  | none => none
  | some files =>
    (removeFirst (fun f => pathJoin folder f == path) files).map
      (fun l => ⟨some l, fs.writable⟩)

/-- The loop of `cleanup_images` (main.py lines 124-136): every iteration
tallies exactly one of the two counters.  The `isinstance` path-type check
on line 126 is identically true here because every listed path is a string. -/
def cleanupGo (folder : String) : List String → FS → Nat × Nat → Nat × Nat × FS
  | [], fs, (s, f) => (s, f, fs)
  | p :: ps, fs, (s, f) =>
    match tryRemove folder p fs with
    | some fs' => cleanupGo folder ps fs' (s + 1, f)
    | none => cleanupGo folder ps fs (s, f + 1)

/-- `ImageDownloader.cleanup_images` (main.py lines 119-138): iterate
`get_all_images`, attempt each removal, return the tallies. -/
def cleanup_images (folder : String) (fs : FS) : Nat × Nat × FS :=
  cleanupGo folder (get_all_images folder fs) fs (0, 0)

/-- The file name a successful fetch of `(timestamp, response)` produces. -/
def fnOf (p : Ts × Response) : String :=
  imageFilename p.1 (parse_extension (p.2.contentType.getD ""))

/-- A response on which the body reaches the write step: success status
and a content type containing `image`. -/
def goodResp (r : Response) : Prop :=
  hasSub "image".data (r.contentType.getD "").data = true ∧
    ¬(400 ≤ r.statusCode ∧ r.statusCode < 600)

instance (r : Response) : Decidable (goodResp r) := by
  unfold goodResp; infer_instance

/-- A sequence of `fetch_image` calls threading the filesystem state. -/
def fetchMany (folder : String) : List (Ts × Response) → FS → FS
  | [], fs => fs
  | (t, r) :: rest, fs => fetchMany folder rest (fetch_image folder t (.resp r) fs).2

/-- State of the storage directory at construction time: whether it
already exists, whether its parent allows creating it, whether the
directory itself is writable, and the files inside it. -/
structure DirState where
  dirExists : Bool
  parentWritable : Bool
  writable : Bool
  files : List String
deriving DecidableEq

/-- `os.makedirs(d, exist_ok=existOk)`: an existing directory is an error
only without `exist_ok`; creating a missing directory needs a writable
parent, else `PermissionError`.  No file inside the directory is touched. -/
def makedirs (d : DirState) (existOk : Bool) : Except PyExn DirState :=
  if d.dirExists then
    if existOk then .ok d else .error .otherExn
  else if d.parentWritable then .ok { d with dirExists := true }
  else .error .permissionError

/-- The storage-directory part of `ImageDownloader.__init__` (main.py
lines 15-26): exactly `os.makedirs(self.save_folder, exist_ok=True)`.
Logger configuration concerns the separate log directory and is outside
this core.  There is no probe write into the storage directory. -/
def initDownloader (save : DirState) : Except PyExn DirState :=
  makedirs save true

/-- World state for teardown: which directory paths exist, and for which
of them `shutil.rmtree` raises instead of removing. -/
structure World where
  dirs : List String
  rmFail : List String
deriving DecidableEq

/-- `if os.path.exists(d): shutil.rmtree(d)` — no-op when absent, removal
or a raised exception when present. -/
def rmtreeIfExists (d : String) (w : World) : Option PyExn × World :=
  if d ∈ w.dirs then
    if d ∈ w.rmFail then (some .otherExn, w)
    else (none, { w with dirs := w.dirs.erase d })
  else (none, w)

/-- The hard-coded second directory removed by `terminate` (main.py line 204). -/
def rootDownloadedImages : String := "downloaded_images"

/-- The default `save_folder` of `ImageDownloader` (main.py line 15). -/
def defaultSaveFolder : String := "imgs/downloaded_images"

/-- The `try` block of `MyPlugin.terminate` (main.py lines 194-209): remove
the configured save folder, then the root-level `downloaded_images`; an
exception from the first step skips the second. -/
def terminateRun (save : String) (w : World) : Option PyExn × World :=
  match rmtreeIfExists save w with
  | (some e, w1) => (some e, w1)
  | (none, w1) => rmtreeIfExists rootDownloadedImages w1

/-- The single `except Exception` clause of `terminate` (main.py line 211). -/
def terminateHandles : PyExn → Bool
  | .requestException => true
  | .ioError => true
  | .permissionError => true
  | .otherExn => true

/-- `MyPlugin.terminate` (main.py lines 192-212) with exception propagation
explicit: a raised exception its `except` clause did not handle would
escape to the host as `.error`. -/
def terminate (save : String) (w : World) : Except PyExn World :=
  match terminateRun save w with
  | (some e, w1) => if terminateHandles e then .ok w1 else .error e
  | (none, w1) => .ok w1

/-! ### Helper lemmas: the timestamp format -/

lemma padNum_length (w : Nat) : ∀ n, (padNum w n).length = w := by
  induction w with
  | zero => intro n; rfl
  | succ w ih => intro n; simp [padNum, ih]

lemma padNum_mem_digit {w n : Nat} {c : Char} (h : c ∈ padNum w n) :
    ∃ m, m < 10 ∧ c = Char.ofNat (48 + m) := by
  induction w generalizing n with
  | zero => simp [padNum] at h
  | succ w ih =>
    simp only [padNum, List.mem_append, List.mem_singleton] at h
    rcases h with h | h
    · exact ih h
    · exact ⟨n % 10, Nat.mod_lt _ (by omega), h⟩

lemma padNum_ne_dot {w n : Nat} {c : Char} (h : c ∈ padNum w n) : c ≠ '.' := by
  obtain ⟨m, hm, rfl⟩ := padNum_mem_digit h
  have key : ∀ x : Fin 10, Char.ofNat (48 + x.val) ≠ '.' := by decide
  exact key ⟨m, hm⟩

lemma digitChar_inj {a b : Nat} (ha : a < 10) (hb : b < 10)
    (h : Char.ofNat (48 + a) = Char.ofNat (48 + b)) : a = b := by
  have key : ∀ x y : Fin 10, Char.ofNat (48 + x.val) = Char.ofNat (48 + y.val) → x = y := by
    decide
  exact congrArg Fin.val (key ⟨a, ha⟩ ⟨b, hb⟩ h)

lemma padNum_inj (w : Nat) : ∀ n m, n < 10 ^ w → m < 10 ^ w →
    padNum w n = padNum w m → n = m := by
  induction w with
  | zero =>
    intro n m hn hm _
    simp [pow_zero] at hn hm
    omega
  | succ w ih =>
    intro n m hn hm h
    simp only [padNum] at h
    obtain ⟨h1, h2⟩ := List.append_inj h (by simp [padNum_length])
    have hmod : n % 10 = m % 10 := by
      have hc : Char.ofNat (48 + n % 10) = Char.ofNat (48 + m % 10) := by
        simpa using h2
      exact digitChar_inj (Nat.mod_lt _ (by omega)) (Nat.mod_lt _ (by omega)) hc
    rw [pow_succ] at hn hm
    have hdiv : n / 10 = m / 10 := ih _ _ (by omega) (by omega) h1
    omega

lemma strftime_inj {t1 t2 : Ts} (h1 : ValidTs t1) (h2 : ValidTs t2)
    (h : strftimeYmdHMSf t1 = strftimeYmdHMSf t2) : t1 = t2 := by
  obtain ⟨y1, mo1, d1, hh1, mi1, s1, u1⟩ := t1
  obtain ⟨y2, mo2, d2, hh2, mi2, s2, u2⟩ := t2
  simp only [ValidTs] at h1 h2
  simp only [strftimeYmdHMSf] at h
  have b4 : (10 : Nat) ^ 4 = 10000 := by norm_num
  have b2 : (10 : Nat) ^ 2 = 100 := by norm_num
  have b6 : (10 : Nat) ^ 6 = 1000000 := by norm_num
  obtain ⟨h, hu⟩ := List.append_inj' h (by simp [padNum_length])
  obtain ⟨h, hs⟩ := List.append_inj' h (by simp [padNum_length])
  obtain ⟨h, hmi⟩ := List.append_inj' h (by simp [padNum_length])
  obtain ⟨h, hh⟩ := List.append_inj' h (by simp [padNum_length])
  obtain ⟨h, hd⟩ := List.append_inj' h (by simp [padNum_length])
  obtain ⟨hy, hmo⟩ := List.append_inj' h (by simp [padNum_length])
  simp only [Ts.mk.injEq]
  refine ⟨?_, ?_, ?_, ?_, ?_, ?_, ?_⟩
  · exact padNum_inj 4 _ _ (b4 ▸ h1.1) (b4 ▸ h2.1) hy
  · exact padNum_inj 2 _ _ (b2 ▸ h1.2.1) (b2 ▸ h2.2.1) hmo
  · exact padNum_inj 2 _ _ (b2 ▸ h1.2.2.1) (b2 ▸ h2.2.2.1) hd
  · exact padNum_inj 2 _ _ (b2 ▸ h1.2.2.2.1) (b2 ▸ h2.2.2.2.1) hh
  · exact padNum_inj 2 _ _ (b2 ▸ h1.2.2.2.2.1) (b2 ▸ h2.2.2.2.2.1) hmi
  · exact padNum_inj 2 _ _ (b2 ▸ h1.2.2.2.2.2.1) (b2 ▸ h2.2.2.2.2.2.1) hs
  · exact padNum_inj 6 _ _ (b6 ▸ h1.2.2.2.2.2.2) (b6 ▸ h2.2.2.2.2.2.2) hu

lemma strftime_ne_dot {t : Ts} {c : Char} (h : c ∈ strftimeYmdHMSf t) : c ≠ '.' := by
  simp only [strftimeYmdHMSf, List.mem_append] at h
  rcases h with ((((((h | h) | h) | h) | h) | h) | h) <;> exact padNum_ne_dot h

lemma imageFilename_inj {t1 t2 : Ts} {e1 e2 : String} (h1 : ValidTs t1) (h2 : ValidTs t2)
    (h : imageFilename t1 e1 = imageFilename t2 e2) : t1 = t2 := by
  have hd := congrArg String.data h
  simp only [imageFilename] at hd
  obtain ⟨hpre, -⟩ := List.append_inj hd
    (by simp [strftimeYmdHMSf, padNum_length])
  obtain ⟨-, hfmt⟩ := List.append_inj hpre rfl
  exact strftime_inj h1 h2 hfmt

/-! ### Helper lemmas: extension filtering and the fetch path -/

lemma lastDotIdx_no_dot {l : List Char} (h : ∀ c ∈ l, c ≠ '.') :
    lastDotIdx l = none := by
  induction l with
  | nil => rfl
  | cons c cs ih =>
    have hc := h c (List.mem_cons_self _ _)
    have ht := ih (fun x hx => h x (List.mem_cons_of_mem _ hx))
    simp [lastDotIdx, ht, hc]

lemma lastDotIdx_append_dot {a b : List Char} (hb : ∀ c ∈ b, c ≠ '.') :
    lastDotIdx (a ++ '.' :: b) = some a.length := by
  induction a with
  | nil => simp [lastDotIdx, lastDotIdx_no_dot hb]
  | cons c cs ih => simp [lastDotIdx, ih]

lemma splitextExt_append_dot {a b : List Char} (ha : 'i' ∈ a)
    (hb : ∀ c ∈ b, c ≠ '.') :
    splitextExt (a ++ '.' :: b) = '.' :: b := by
  have h1 : lastDotIdx (a ++ '.' :: b) = some a.length := lastDotIdx_append_dot hb
  have hall : (a.all fun x => decide (x = '.')) = false := by
    rw [List.all_eq_false]
    exact ⟨'i', ha, by decide⟩
  simp only [splitextExt, h1, List.take_left, List.drop_left, hall]
  simp

lemma splitextExt_imageFilename (t : Ts) (ext : String)
    (hext : ∀ c ∈ ext.data, c ≠ '.') :
    splitextExt (imageFilename t ext).data = '.' :: ext.data := by
  show splitextExt (("image_".data ++ strftimeYmdHMSf t) ++ '.' :: ext.data)
      = '.' :: ext.data
  exact splitextExt_append_dot (by simp) hext

lemma parse_extension_cases (ct : String) :
    parse_extension ct = "jpg" ∨ parse_extension ct = "png" ∨
      parse_extension ct = "gif" := by
  simp only [parse_extension]
  split_ifs <;> simp

lemma isImageFile_imageFilename (t : Ts) (ext : String)
    (hx : ext = "jpg" ∨ ext = "png" ∨ ext = "gif") :
    isImageFile (imageFilename t ext) = true := by
  rcases hx with rfl | rfl | rfl
  · simp only [isImageFile, splitextExt_imageFilename t "jpg" (by decide)]
    decide
  · simp only [isImageFile, splitextExt_imageFilename t "png" (by decide)]
    decide
  · simp only [isImageFile, splitextExt_imageFilename t "gif" (by decide)]
    decide

lemma fetch_image_good (folder : String) (t : Ts) (r : Response)
    (files : List String) (hr : goodResp r) :
    fetch_image folder t (.resp r) ⟨some files, true⟩ =
      (some (pathJoin folder (fnOf (t, r))),
        ⟨some (if fnOf (t, r) ∈ files then files else files ++ [fnOf (t, r)]),
          true⟩) := by
  obtain ⟨hct, hst⟩ := hr
  unfold fetch_image fetch_image_body fnOf
  simp [hst, hct]

lemma fetchMany_good (folder : String) :
    ∀ (inputs : List (Ts × Response)) (files0 : List String),
      (∀ p ∈ inputs, goodResp p.2 ∧ ValidTs p.1) →
      (inputs.map Prod.fst).Nodup →
      (∀ p ∈ inputs, fnOf p ∉ files0) →
      fetchMany folder inputs ⟨some files0, true⟩ =
        ⟨some (files0 ++ inputs.map fnOf), true⟩ := by
  intro inputs
  induction inputs with
  | nil =>
    intro files0 _ _ _
    simp [fetchMany]
  | cons pr rest ih =>
    intro files0 hgood hnodup hnotin
    obtain ⟨t, r⟩ := pr
    have hg := (hgood _ (List.mem_cons_self _ _)).1
    have hni : fnOf (t, r) ∉ files0 := hnotin _ (List.mem_cons_self _ _)
    have hstep : fetchMany folder ((t, r) :: rest) ⟨some files0, true⟩ =
        fetchMany folder rest ⟨some (files0 ++ [fnOf (t, r)]), true⟩ := by
      show fetchMany folder rest
          (fetch_image folder t (.resp r) ⟨some files0, true⟩).2 = _
      rw [fetch_image_good folder t r files0 hg, if_neg hni]
    rw [hstep, ih (files0 ++ [fnOf (t, r)])
        (fun p hp => hgood p (List.mem_cons_of_mem _ hp))
        (by simpa using (List.nodup_cons.mp (by simpa using hnodup)).2) ?_]
    · simp
    intro p hp
    simp only [List.mem_append, List.mem_singleton]
    rintro (hin | heq)
    · exact hnotin p (List.mem_cons_of_mem _ hp) hin
    · have ht : p.1 = t :=
        imageFilename_inj (hgood p (List.mem_cons_of_mem _ hp)).2
          (hgood (t, r) (List.mem_cons_self _ _)).2 heq
      have hmem : t ∈ rest.map Prod.fst := ht ▸ List.mem_map_of_mem Prod.fst hp
      have hhead : t ∉ rest.map Prod.fst :=
        (List.nodup_cons.mp (by simpa using hnodup)).1
      exact hhead hmem

lemma cleanupGo_all_success (folder : String) :
    ∀ (l : List String) (w : Bool) (s f : Nat),
      cleanupGo folder (l.map (pathJoin folder)) ⟨some l, w⟩ (s, f) =
        (s + l.length, f, ⟨some [], w⟩) := by
  intro l
  induction l with
  | nil =>
    intro w s f
    simp [cleanupGo]
  | cons x rest ih =>
    intro w s f
    have hrm : tryRemove folder (pathJoin folder x) ⟨some (x :: rest), w⟩ =
        some ⟨some rest, w⟩ := by
      simp [tryRemove, removeFirst]
    simp only [List.map_cons, cleanupGo, hrm]
    rw [ih]
    have : s + 1 + rest.length = s + (rest.length + 1) := by omega
    simp [this]

lemma cleanupGo_count (folder : String) :
    ∀ (ps : List String) (fs : FS) (s f : Nat),
      (cleanupGo folder ps fs (s, f)).1 + (cleanupGo folder ps fs (s, f)).2.1 =
        s + f + ps.length := by
  intro ps
  induction ps with
  | nil =>
    intro fs s f
    simp [cleanupGo]
  | cons p rest ih =>
    intro fs s f
    cases h : tryRemove folder p fs with
    | some fs' =>
      simp only [cleanupGo, h]
      rw [ih]
      simp only [List.length_cons]
      omega
    | none =>
      simp only [cleanupGo, h]
      rw [ih]
      simp only [List.length_cons]
      omega

/-! ### Helper lemmas: parameters and whitespace in `_parse_extension` -/

lemma pyIsSpace_ne_semi {c : Char} (h : pyIsSpace c = true) : (c != ';') = true := by
  have hc : c ≠ ';' := by
    intro hc
    subst hc
    exact absurd h (by decide)
  exact bne_iff_ne.mpr hc

lemma takeWhile_of_all {p : Char → Bool} :
    ∀ {l : List Char}, (∀ c ∈ l, p c = true) → l.takeWhile p = l := by
  intro l
  induction l with
  | nil => intro _; rfl
  | cons c cs ih =>
    intro h
    simp [List.takeWhile_cons, h c (List.mem_cons_self _ _),
      ih (fun x hx => h x (List.mem_cons_of_mem _ hx))]

lemma takeWhile_append_of_stop {p : Char → Bool} :
    ∀ {s : List Char} (t : List Char), ¬(∀ c ∈ s, p c = true) →
      (s ++ t).takeWhile p = s.takeWhile p := by
  intro s
  induction s with
  | nil =>
    intro t h
    exact absurd (by simp) h
  | cons c cs ih =>
    intro t h
    by_cases hc : p c = true
    · have hcs : ¬(∀ x ∈ cs, p x = true) := by
        intro hall
        refine h ?_
        intro x hx
        rcases List.mem_cons.mp hx with rfl | hx'
        · exact hc
        · exact hall x hx'
      simp [List.takeWhile_cons, hc, ih t hcs]
    · have hc' : p c = false := by simpa using hc
      simp [List.takeWhile_cons, hc']

lemma parse_extension_key_congr {a b : String}
    (h : pyStrip (splitSemiHead a.data) = pyStrip (splitSemiHead b.data)) :
    parse_extension a = parse_extension b := by
  unfold parse_extension
  rw [h]

lemma pyStrip_space_prepend {ws l : List Char}
    (h : ∀ c ∈ ws, pyIsSpace c = true) : pyStrip (ws ++ l) = pyStrip l := by
  unfold pyStrip pyLstrip
  rw [List.dropWhile_append_of_pos h]

lemma pyRstrip_space_append {ws l : List Char}
    (h : ∀ c ∈ ws, pyIsSpace c = true) : pyRstrip (l ++ ws) = pyRstrip l := by
  unfold pyRstrip
  rw [List.reverse_append,
    List.dropWhile_append_of_pos (fun c hc => h c (List.mem_reverse.mp hc))]

lemma pyStrip_space_append {ws l : List Char}
    (h : ∀ c ∈ ws, pyIsSpace c = true) : pyStrip (l ++ ws) = pyStrip l := by
  unfold pyStrip
  show pyRstrip (List.dropWhile pyIsSpace (l ++ ws)) =
    pyRstrip (List.dropWhile pyIsSpace l)
  rw [List.dropWhile_append]
  split
  · rename_i hemp
    have hl : l.dropWhile pyIsSpace = [] := by
      rwa [List.isEmpty_iff] at hemp
    have hw : ws.dropWhile pyIsSpace = [] := by
      rw [List.dropWhile_eq_nil_iff]
      exact h
    rw [hl, hw]
  · exact pyRstrip_space_append h

lemma splitSemiHead_append_semi (s rest : List Char) :
    splitSemiHead (s ++ ';' :: rest) = splitSemiHead s := by
  unfold splitSemiHead
  by_cases hall : ∀ c ∈ s, (c != ';') = true
  · rw [List.takeWhile_append_of_pos hall, takeWhile_of_all hall]
    simp [List.takeWhile_cons]
  · exact takeWhile_append_of_stop _ hall

lemma splitSemiHead_space_append {s ws : List Char}
    (h : ∀ c ∈ ws, pyIsSpace c = true) :
    pyStrip (splitSemiHead (s ++ ws)) = pyStrip (splitSemiHead s) := by
  unfold splitSemiHead
  by_cases hall : ∀ c ∈ s, (c != ';') = true
  · rw [List.takeWhile_append_of_pos hall, takeWhile_of_all hall,
      takeWhile_of_all (fun c hc => pyIsSpace_ne_semi (h c hc)),
      pyStrip_space_append h]
  · rw [takeWhile_append_of_stop _ hall]

/-! ### Claim theorems -/

/-- C1: for every HTTP response whose Content-Type header (defaulted to the
empty string when absent) does not contain the substring "image",
`fetch_image` returns `None` and leaves the storage state unchanged — no
file is created.  This holds whatever the status code: a 4xx/5xx status
also ends in `(none, fs)` via `raise_for_status`. -/
theorem c1_non_image_content_type_no_file (folder : String) (t : Ts)
    (r : Response) (fs : FS)
    (h : hasSub "image".data (r.contentType.getD "").data = false) :
    fetch_image folder t (.resp r) fs = (none, fs) := by
  unfold fetch_image fetch_image_body
  by_cases hs : 400 ≤ r.statusCode ∧ r.statusCode < 600
  · simp [hs]
  · simp [hs, h]

/-- Witness for C1 at a concrete `text/html` 200 response. -/
theorem c1_witness :
    hasSub "image".data ("text/html" : String).data = false ∧
    fetch_image "imgs/downloaded_images" ⟨2024, 1, 2, 3, 4, 5, 6⟩
        (.resp ⟨200, some "text/html", [72], api_url⟩) ⟨some [], true⟩ =
      (none, ⟨some [], true⟩) :=
  ⟨by decide,
    c1_non_image_content_type_no_file "imgs/downloaded_images"
      ⟨2024, 1, 2, 3, 4, 5, 6⟩ ⟨200, some "text/html", [72], api_url⟩
      ⟨some [], true⟩ (by decide)⟩

/-- C2 counterexample: the claim says initialization performs a write/delete
probe and fails fast with a `PermissionError` on a read-only storage
directory.  On an existing directory that is not writable, `__init__`
(which only runs `os.makedirs(..., exist_ok=True)`) succeeds without any
error and without writing or deleting any marker file: the state is
returned untouched, not a `PermissionError`. -/
theorem c2_counterexample_no_probe_no_permission_error :
    initDownloader ⟨true, true, false, []⟩ = .ok ⟨true, true, false, []⟩ := rfl

/-- C2 (amended): at startup the storage-directory initialization creates
the directory (and parents) if absent, idempotently when it already exists,
and performs no write/delete probe and no file writes at all; a
`PermissionError` surfaces only when the directory must be created and its
parent is not writable — a pre-existing read-only directory is not
detected. -/
theorem c2_init_creates_dir_without_probe (d : DirState) :
    initDownloader d =
      (if d.dirExists then .ok d
       else if d.parentWritable then .ok { d with dirExists := true }
       else .error .permissionError) := by
  unfold initDownloader makedirs
  by_cases h1 : d.dirExists = true
  · simp [h1]
  · by_cases h2 : d.parentWritable = true <;> simp [h1, h2]

/-- C4: `fetch_image` never raises an uncaught exception: its
exception-explicit version always returns `.ok`, agreeing with the total
version that yields `None` on every failure (network error, timeout,
non-success status, invalid content-type, or write failure). -/
theorem c4_fetch_image_never_raises (folder : String) (t : Ts)
    (req : ReqResult) (fs : FS) :
    fetch_image_exc folder t req fs = .ok (fetch_image folder t req fs) := by
  cases h : fetch_image_body folder t req fs with
  | ok res => simp [fetch_image_exc, fetch_image, h]
  | error e => cases e <;> simp [fetch_image_exc, fetch_image, h, fetchHandles]

/-- C5: the saved filename `image_<timestamp>.<ext>` uses a
microsecond-precision, fixed-width numeric timestamp, so two fetches in the
same wall-clock second at distinct timestamps get distinct filenames,
whatever extensions they are assigned. -/
theorem c5_same_second_distinct_usec_distinct_filenames
    (t1 t2 : Ts) (e1 e2 : String) (h1 : ValidTs t1) (h2 : ValidTs t2)
    (hy : t1.year = t2.year) (hmo : t1.month = t2.month) (hd : t1.day = t2.day)
    (hh : t1.hour = t2.hour) (hmi : t1.minute = t2.minute)
    (hs : t1.second = t2.second) (hu : t1.usec ≠ t2.usec) :
    imageFilename t1 e1 ≠ imageFilename t2 e2 := by
  intro he
  exact hu (congrArg Ts.usec (imageFilename_inj h1 h2 he))

/-- Witness for C5 at two concrete timestamps in the same second. -/
theorem c5_witness :
    imageFilename ⟨2024, 1, 2, 3, 4, 5, 100⟩ "jpg" ≠
      imageFilename ⟨2024, 1, 2, 3, 4, 5, 101⟩ "jpg" :=
  c5_same_second_distinct_usec_distinct_filenames
    ⟨2024, 1, 2, 3, 4, 5, 100⟩ ⟨2024, 1, 2, 3, 4, 5, 101⟩ "jpg" "jpg"
    (by decide) (by decide) (by decide) (by decide) (by decide) (by decide)
    (by decide) (by decide) (by decide)

/-- C3: after N successful fetches (image-typed responses at pairwise
distinct valid timestamps) into an initially empty storage directory, with
every listed file present and every removal succeeding, `cleanup_images`
deletes every file and reports `(successCount, failedCount) = (N, 0)`. -/
theorem c3_cleanup_after_n_fetches (folder : String)
    (inputs : List (Ts × Response))
    (hgood : ∀ p ∈ inputs, goodResp p.2 ∧ ValidTs p.1)
    (hnodup : (inputs.map Prod.fst).Nodup) :
    cleanup_images folder (fetchMany folder inputs ⟨some [], true⟩) =
      (inputs.length, 0, ⟨some [], true⟩) := by
  have hlist := fetchMany_good folder inputs [] hgood hnodup (by simp)
  have hnil : (([] : List String) ++ inputs.map fnOf) = inputs.map fnOf := by
    simp
  rw [hlist, hnil]
  unfold cleanup_images
  have hfilter : (inputs.map fnOf).filter isImageFile = inputs.map fnOf := by
    rw [List.filter_eq_self]
    intro a ha
    obtain ⟨p, hp, rfl⟩ := List.mem_map.mp ha
    exact isImageFile_imageFilename _ _ (parse_extension_cases _)
  have hga : get_all_images folder ⟨some (inputs.map fnOf), true⟩ =
      (inputs.map fnOf).map (pathJoin folder) := by
    simp [get_all_images, hfilter]
  rw [hga, cleanupGo_all_success folder (inputs.map fnOf) true 0 0]
  simp

/-- Witness for C3: two concrete successful fetches, then cleanup = (2,0). -/
theorem c3_witness :
    cleanup_images "imgs" (fetchMany "imgs"
      [(⟨2024, 5, 6, 7, 8, 9, 10⟩, ⟨200, some "image/png", [0], "u"⟩),
       (⟨2024, 5, 6, 7, 8, 9, 11⟩, ⟨200, some "image/jpeg", [1], "u"⟩)]
      ⟨some [], true⟩) = (2, 0, ⟨some [], true⟩) :=
  c3_cleanup_after_n_fetches "imgs"
    [(⟨2024, 5, 6, 7, 8, 9, 10⟩, ⟨200, some "image/png", [0], "u"⟩),
     (⟨2024, 5, 6, 7, 8, 9, 11⟩, ⟨200, some "image/jpeg", [1], "u"⟩)]
    (by decide) (by decide)

/-- C6: `_parse_extension` maps `image/jpeg` to `jpg`, `image/png` to
`png`, `image/gif` to `gif`; any other content-type falls back to the
default `jpg`; media-type parameters after `;` and surrounding whitespace
are ignored for the lookup. -/
theorem c6_parse_extension_mapping :
    (parse_extension "image/jpeg" = "jpg" ∧ parse_extension "image/png" = "png" ∧
      parse_extension "image/gif" = "gif") ∧
    (∀ ct : String, pyStrip (splitSemiHead ct.data) ≠ "image/jpeg".data →
      pyStrip (splitSemiHead ct.data) ≠ "image/png".data →
      pyStrip (splitSemiHead ct.data) ≠ "image/gif".data →
      parse_extension ct = "jpg") ∧
    (∀ s rest : List Char,
      parse_extension (String.mk (s ++ ';' :: rest)) =
        parse_extension (String.mk s)) ∧
    (∀ ws s : List Char, (∀ c ∈ ws, pyIsSpace c = true) →
      parse_extension (String.mk (ws ++ s)) = parse_extension (String.mk s)) ∧
    (∀ s ws : List Char, (∀ c ∈ ws, pyIsSpace c = true) →
      parse_extension (String.mk (s ++ ws)) = parse_extension (String.mk s)) := by
  refine ⟨⟨by decide, by decide, by decide⟩, ?_, ?_, ?_, ?_⟩
  · intro ct h1 h2 h3
    simp only [parse_extension]
    rw [if_neg h1, if_neg h2, if_neg h3]
  · intro s rest
    exact parse_extension_key_congr
      (congrArg pyStrip (splitSemiHead_append_semi s rest))
  · intro ws s h
    refine parse_extension_key_congr ?_
    show pyStrip (splitSemiHead (ws ++ s)) = pyStrip (splitSemiHead s)
    have h1 : splitSemiHead (ws ++ s) = ws ++ splitSemiHead s := by
      unfold splitSemiHead
      exact List.takeWhile_append_of_pos (fun c hc => pyIsSpace_ne_semi (h c hc))
    rw [h1]
    exact pyStrip_space_prepend h
  · intro s ws h
    exact parse_extension_key_congr (splitSemiHead_space_append h)

/-- Witness for C6: leading whitespace, trailing whitespace and a
parameter after `;` are all ignored for a concrete `image/png` lookup. -/
theorem c6_witness :
    parse_extension (String.mk (" ".data ++ "image/png".data)) = "png" ∧
    parse_extension (String.mk ("image/png".data ++ ';' :: " charset=utf-8".data)) =
      "png" := by
  constructor
  · have h := c6_parse_extension_mapping.2.2.2.1 " ".data "image/png".data
      (by decide)
    rw [h]
    decide
  · have h := c6_parse_extension_mapping.2.2.1 "image/png".data
      " charset=utf-8".data
    rw [h]
    decide

/-- C7: `get_all_images` on a missing storage directory returns the empty
list, and on an existing directory returns exactly the joined paths of the
listed names whose `splitext` extension, lowercased, is one of
`.jpg`, `.jpeg`, `.png`, `.gif`, `.webp`. -/
theorem c7_get_all_images_characterization :
    (∀ (folder : String) (w : Bool), get_all_images folder ⟨none, w⟩ = []) ∧
    (∀ (folder : String) (files : List String) (w : Bool) (p : String),
      p ∈ get_all_images folder ⟨some files, w⟩ ↔
        ∃ f, f ∈ files ∧ isImageFile f = true ∧ p = pathJoin folder f) := by
  constructor
  · intro folder w
    rfl
  · intro folder files w p
    simp only [get_all_images, List.mem_map, List.mem_filter]
    constructor
    · rintro ⟨f, ⟨hf, hi⟩, rfl⟩
      exact ⟨f, hf, hi, rfl⟩
    · rintro ⟨f, hf, hi, rfl⟩
      exact ⟨f, ⟨hf, hi⟩, rfl⟩

/-- C8: for every storage state, `cleanup_images` tallies every listed
image exactly once: successCount + failedCount equals the length of the
`get_all_images` listing taken at the start of the call (both counts are
naturals, hence non-negative). -/
theorem c8_cleanup_tally_invariant (folder : String) (fs : FS) :
    (cleanup_images folder fs).1 + (cleanup_images folder fs).2.1 =
      (get_all_images folder fs).length := by
  unfold cleanup_images
  have h := cleanupGo_count folder (get_all_images folder fs) fs 0 0
  simpa using h

/-- C9: every path returned by a successful `fetch_image` is the join of
the storage folder with a file name whose extension passes the
`get_all_images` filter, its derived extension is one of `jpg`, `png`,
`gif`, and the path is a member of the `get_all_images` enumeration of the
resulting state — so every file `fetch_image` creates is discoverable (and
deletable) by the cleanup enumeration. -/
theorem c9_fetch_result_discoverable (folder : String) (t : Ts) (r : Response)
    (fs : FS) (p : String) (fs' : FS)
    (h : fetch_image folder t (.resp r) fs = (some p, fs')) :
    (∃ fn, isImageFile fn = true ∧ p = pathJoin folder fn) ∧
      p ∈ get_all_images folder fs' ∧
      parse_extension (r.contentType.getD "") ∈
        (["jpg", "png", "gif"] : List String) := by
  by_cases hst : 400 ≤ r.statusCode ∧ r.statusCode < 600
  · simp [fetch_image, fetch_image_body, hst] at h
  by_cases hct : hasSub "image".data (r.contentType.getD "").data = true
  case neg =>
    simp [fetch_image, fetch_image_body, hst, hct] at h
  cases hdf : fs.dirFiles with
  | none =>
    simp [fetch_image, fetch_image_body, hst, hct, hdf] at h
  | some files =>
    by_cases hw : fs.writable = true
    case neg =>
      simp [fetch_image, fetch_image_body, hst, hct, hdf, hw] at h
    simp only [fetch_image, fetch_image_body, hst, hct, hdf, hw, if_true,
      if_false, if_pos, ite_true] at h
    simp [hst, hct] at h
    obtain ⟨hp, hfs⟩ := h
    set fn := imageFilename t (parse_extension (r.contentType.getD "")) with hfn
    have hisimg : isImageFile fn = true :=
      isImageFile_imageFilename _ _ (parse_extension_cases _)
    have hmem : fn ∈ (if fn ∈ files then files else files ++ [fn]) := by
      by_cases hin : fn ∈ files
      · simp only [if_pos hin]
        exact hin
      · simp [hin]
    refine ⟨⟨fn, hisimg, hp.symm⟩, ?_, ?_⟩
    · rw [← hfs, ← hp]
      simp only [get_all_images, List.mem_map]
      exact ⟨fn, List.mem_filter.mpr ⟨hmem, hisimg⟩, rfl⟩
    · rcases parse_extension_cases (r.contentType.getD "") with hc | hc | hc <;>
        simp [hc]

/-- Witness for C9 at a concrete successful `image/png` fetch. -/
theorem c9_witness :
    ("imgs/image_20240506070809000010.png" : String) ∈
      get_all_images "imgs" ⟨some ["image_20240506070809000010.png"], true⟩ :=
  (c9_fetch_result_discoverable "imgs" ⟨2024, 5, 6, 7, 8, 9, 10⟩
    ⟨200, some "image/png", [0], "u"⟩ ⟨some [], true⟩
    "imgs/image_20240506070809000010.png"
    ⟨some ["image_20240506070809000010.png"], true⟩ (by decide)).2.1

/-- C10: on plugin unload `terminate` never propagates an exception to the
host; when neither removal fails it removes both the configured storage
folder and the hard-coded root-level `downloaded_images` directory (a path
distinct from the default storage path), tolerating either directory being
absent. -/
theorem c10_terminate_removes_both_dirs :
    (∀ (save : String) (w : World), (terminate save w).isOk = true) ∧
    (∀ (save : String) (w : World), save ∉ w.rmFail →
      rootDownloadedImages ∉ w.rmFail →
      terminate save w =
        .ok ⟨(w.dirs.erase save).erase rootDownloadedImages, w.rmFail⟩) ∧
    rootDownloadedImages ≠ defaultSaveFolder := by
  refine ⟨?_, ?_, by decide⟩
  · intro save w
    rcases h : terminateRun save w with ⟨e?, w1⟩
    cases e? with
    | none => simp [terminate, h, Except.isOk, Except.toBool]
    | some e =>
      cases e <;>
        simp [terminate, h, terminateHandles, Except.isOk, Except.toBool]
  · intro save w h1 h2
    have e1 : rmtreeIfExists save w = (none, ⟨w.dirs.erase save, w.rmFail⟩) := by
      unfold rmtreeIfExists
      by_cases hsv : save ∈ w.dirs
      · rw [if_pos hsv, if_neg h1]
      · rw [if_neg hsv, List.erase_of_not_mem hsv]
    have e2 : rmtreeIfExists rootDownloadedImages
        (⟨w.dirs.erase save, w.rmFail⟩ : World) =
        (none, ⟨(w.dirs.erase save).erase rootDownloadedImages, w.rmFail⟩) := by
      unfold rmtreeIfExists
      by_cases hrt : rootDownloadedImages ∈ w.dirs.erase save
      · rw [if_pos hrt, if_neg h2]
      · rw [if_neg hrt, List.erase_of_not_mem hrt]
    unfold terminate terminateRun
    rw [e1]
    simp only []
    rw [e2]

/-- Witness for C10 at a concrete world holding both directories. -/
theorem c10_witness :
    terminate defaultSaveFolder
        ⟨[defaultSaveFolder, rootDownloadedImages], []⟩ =
      .ok ⟨[], []⟩ := by
  have h := c10_terminate_removes_both_dirs.2.1 defaultSaveFolder
    ⟨[defaultSaveFolder, rootDownloadedImages], []⟩ (by simp) (by simp)
  rw [h]
  rfl
